import Mathlib

/-!
# Pointer interaction state machine and camera transition animator

A shallow embedding of `src/events.js` (the pointer handlers `onMouseDown`,
`onMouseMove`, `onMouseUp`, `handleClick`) and of `src/main.js` (the camera
animator `moveCamera`, `animateCamera`), followed by theorems about them.

Numbers are exact rationals.  The scene graph is reduced to the fields the
handlers read and write: the opacity of the three plane materials, the
visibility of the three axis labels and of the three grid groups, and the
own-axis position component of each plane.
-/

namespace Web1

/-! ## Vectors -/

/-- A `THREE.Vector2`. -/
structure Vec2 where
  x : ℚ
  y : ℚ
deriving DecidableEq, Repr

/-- A `THREE.Vector3`. -/
structure Vec3 where
  x : ℚ
  y : ℚ
  z : ℚ
deriving DecidableEq, Repr

/-- The square of `a.distanceTo(b)`: `dx*dx + dy*dy`. -/
def Vec2.distanceToSquared (a b : Vec2) : ℚ :=
  (a.x - b.x) * (a.x - b.x) + (a.y - b.y) * (a.y - b.y)

/-- The test `a.distanceTo(b) > 5` of `onMouseMove`.  `distanceTo` is the square
root of `distanceToSquared`, so the test is decided on the squares
(see `distanceTo_gt_five_iff`). -/
def Vec2.distanceToGtFive (a b : Vec2) : Bool :=
  decide (25 < a.distanceToSquared b)

/-- The method `v.multiplyScalar(k)` (on a clone: the receiver is a fresh value). -/
def Vec3.multiplyScalar (v : Vec3) (k : ℚ) : Vec3 :=
  ⟨v.x * k, v.y * k, v.z * k⟩

/-- The method `p.lerp(q, alpha)`: `p += (q - p) * alpha` on every component. -/
def Vec3.lerp (p q : Vec3) (alpha : ℚ) : Vec3 :=
  ⟨p.x + (q.x - p.x) * alpha, p.y + (q.y - p.y) * alpha, p.z + (q.z - p.z) * alpha⟩

/-! ## events.js -/

/-- The three named planes `xPlane`, `yPlane`, `zPlane`; also used to index the
label and the grid group of the same axis. -/
inductive Plane where
  | xPlane
  | yPlane
  | zPlane
deriving DecidableEq, Repr

/-- The constant `planeOpacity` exported by `components.js`. -/
def planeOpacity : ℚ := 1 / 2

/-- The constant `originalOpacity = planeOpacity`. -/
def originalOpacity : ℚ := planeOpacity

/-- The constant `hoverOpacity = Math.min(0.7, 2*planeOpacity)`. -/
def hoverOpacity : ℚ := min (7 / 10) (2 * planeOpacity)

/-- One entry of `cameraPositions`: a position and a look-at point. -/
structure Pose where
  position : Vec3
  lookAt : Vec3
deriving DecidableEq, Repr

/-- The table `cameraPositions` as written in the source. -/
def cameraPositions : Plane → Pose
  | .yPlane => ⟨⟨0, 10, 0⟩, ⟨0, 0, 0⟩⟩
  | .xPlane => ⟨⟨10, 0, 0⟩, ⟨0, 0, 0⟩⟩
  | .zPlane => ⟨⟨0, 0, 10⟩, ⟨0, 0, 0⟩⟩

/-- The component of a vector along the axis of a plane (`camera.position.x`
for `xPlane`, and so on). -/
def Vec3.along (v : Vec3) : Plane → ℚ
  | .xPlane => v.x
  | .yPlane => v.y
  | .zPlane => v.z

/-- What a handler reads from a mouse event and from its surroundings at the
time of the event: the pointer position, the plane found by
`intersects.find(obj => ['xPlane','yPlane','zPlane'].includes(obj.object.name))?.object`
(`none` for `undefined`), and `camera.position`. -/
structure MouseEvent where
  clientX : ℚ
  clientY : ℚ
  hit : Option Plane
  cameraPosition : Vec3
deriving DecidableEq, Repr

/-- Module state of `events.js` together with the scene fields it touches.
`stored` holds the (mutable) vectors of the `cameraPositions` object;
`moveCameraCalls` records the arguments of every call of the injected
`moveCamera`, oldest first. -/
structure State where
  isDragging : Bool
  isMouseDown : Bool
  hoveredObject : Option Plane
  isNormal : Bool
  mouseDownPos : Vec2
  stored : Plane → Pose
  opacity : Plane → ℚ
  labelVisible : Plane → Bool
  gridGroupVisible : Plane → Bool
  offset : Plane → ℚ
  moveCameraCalls : List (Vec3 × Vec3)

/-- The state after module load and scene construction: every plane at
`planeOpacity` and at position 0, everything visible, no flag set. -/
def State.init : State where
  isDragging := false
  isMouseDown := false
  hoveredObject := none
  isNormal := false
  mouseDownPos := ⟨0, 0⟩
  stored := cameraPositions
  opacity := fun _ => planeOpacity
  labelVisible := fun _ => true
  gridGroupVisible := fun _ => true
  offset := fun _ => 0
  moveCameraCalls := []

/-- How a handler ends: normally, or by an uncaught `TypeError`; in both cases
the mutations made so far stay. -/
inductive Outcome where
  | done (s : State)
  | threw (s : State)

/-- The state a handler leaves behind. -/
def Outcome.state : Outcome → State
  | .done s => s
  | .threw s => s

/-- Whether the handler ended by an exception. -/
def Outcome.hasThrown : Outcome → Bool
  | .done _ => false
  | .threw _ => true

/-- The handler `onMouseDown`. -/
def onMouseDown (e : MouseEvent) (s : State) : State :=
  { s with isMouseDown := true, mouseDownPos := ⟨e.clientX, e.clientY⟩ }

/-- The hover block of `onMouseMove` (lines 69-86), run when `!isNormal`. -/
def hoverUpdate (e : MouseEvent) (s : State) : State :=
  match e.hit with
  | some plane =>
    let s1 : State :=
      match s.hoveredObject with
      | some h =>
        if h ≠ plane then { s with opacity := Function.update s.opacity h originalOpacity }
        else s
      | none => s
    { s1 with opacity := Function.update s1.opacity plane hoverOpacity,
              hoveredObject := some plane }
  | none =>
    match s.hoveredObject with
    | some h =>
      { s with opacity := Function.update s.opacity h originalOpacity, hoveredObject := none }
    | none => s

/-- The body of `if(isDragging){...}` in `onMouseMove` up to its `return`. -/
def dragReset (s : State) : State :=
  { s with isNormal := false,
           labelVisible := fun _ => true,
           offset := fun _ => 0,
           gridGroupVisible := fun _ => true }

/-- The handler `onMouseMove`. -/
def onMouseMove (e : MouseEvent) (s : State) : State :=
  let s1 : State :=
    if s.isMouseDown && s.mouseDownPos.distanceToGtFive ⟨e.clientX, e.clientY⟩ then
      { s with isDragging := true }
    else s
  if s1.isMouseDown && s1.isDragging then dragReset s1
  else if !s1.isNormal then hoverUpdate e s1
  else s1

/-- The two grid groups hidden by the `switch` of `handleClick` for a clicked plane. -/
def otherGroups : Plane → Plane × Plane
  | .xPlane => (.yPlane, .zPlane)
  | .yPlane => (.xPlane, .zPlane)
  | .zPlane => (.xPlane, .yPlane)

/-- The function `handleClick`.  `hoveredObject.material.opacity = ...` throws a
`TypeError` when `hoveredObject` is `null`, after `isNormal = true` has been
assigned. -/
def handleClick (e : MouseEvent) (s : State) : Outcome :=
  match e.hit with
  | none => .done s
  | some clickedPlane =>
    let s1 : State := { s with isNormal := true }
    match s1.hoveredObject with
    | none => .threw s1
    | some h =>
      let s2 : State := { s1 with opacity := Function.update s1.opacity h originalOpacity }
      let s3 : State :=
        { s2 with labelVisible := Function.update s2.labelVisible clickedPlane false }
      let g1 : Plane → Bool :=
        Function.update s3.gridGroupVisible (otherGroups clickedPlane).1 false
      let s4 : State :=
        { s3 with gridGroupVisible := Function.update g1 (otherGroups clickedPlane).2 false }
      let target : Vec3 :=
        if e.cameraPosition.along clickedPlane > 0 then (s4.stored clickedPlane).position
        else (s4.stored clickedPlane).position.multiplyScalar (-1)
      let call : Vec3 × Vec3 := (target, (s4.stored clickedPlane).lookAt)
      let s5 : State := { s4 with moveCameraCalls := s4.moveCameraCalls ++ [call] }
      let nudged : ℚ := s5.offset clickedPlane - 1 / 100
      .done { s5 with offset := Function.update s5.offset clickedPlane nudged }

/-- The handler `onMouseUp`.  An exception of `handleClick` leaves the handler
before `isDragging = false`. -/
def onMouseUp (e : MouseEvent) (s : State) : Outcome :=
  let s1 : State := { s with isMouseDown := false }
  if !s1.isDragging && !s1.isNormal then
    match handleClick e s1 with
    | .done s2 => .done { s2 with isDragging := false }
    | .threw s2 => .threw s2
  else .done { s1 with isDragging := false }

/-- A pointer event delivered to the window. -/
inductive Ev where
  | down (e : MouseEvent)
  | move (e : MouseEvent)
  | up (e : MouseEvent)

/-- Dispatch of one event; after an uncaught exception the page goes on with the
state the handler left. -/
def step (s : State) : Ev → State
  | .down e => onMouseDown e s
  | .move e => onMouseMove e s
  | .up e => (onMouseUp e s).state

/-- Dispatch of a sequence of events, oldest first. -/
def run (s : State) (es : List Ev) : State :=
  es.foldl step s

/-- Dispatch of a run of pointer-move events, oldest first. -/
def moves (s : State) (ms : List MouseEvent) : State :=
  ms.foldl (fun t m => onMouseMove m t) s

/-! ## main.js: the camera animator -/

/-- Module state of the animator in `main.js` (`targetPosition`, `targetLookAt`,
`overshootPosition`, `isMoving`, `progress`) together with the two vectors it
writes: `camera.position` and `controls.target`. -/
structure Animator where
  cameraPosition : Vec3
  controlsTarget : Vec3
  targetPosition : Vec3
  targetLookAt : Vec3
  overshootPosition : Vec3
  isMoving : Bool
  progress : ℚ
deriving DecidableEq, Repr

/-- The animator as declared at module load (`new THREE.Vector3()` is the zero
vector, `isMoving = false`, `progress = 0`), for a given camera position and
orbit focus. -/
def Animator.init (camera focus : Vec3) : Animator where
  cameraPosition := camera
  controlsTarget := focus
  targetPosition := ⟨0, 0, 0⟩
  targetLookAt := ⟨0, 0, 0⟩
  overshootPosition := ⟨0, 0, 0⟩
  isMoving := false
  progress := 0

/-- The constant `moveSpeed = 0.01`. -/
def moveSpeed : ℚ := 1 / 100

/-- The constant `overshootFactor = 0.98` of `moveCamera`. -/
def overshootFactor : ℚ := 98 / 100

/-- The function `moveCamera(targetPos, lookAtPos)`. -/
def moveCamera (targetPos lookAtPos : Vec3) (s : Animator) : Animator :=
  let overshootPos : Vec3 := targetPos.multiplyScalar overshootFactor
  let s1 : Animator :=
    { s with targetPosition := targetPos, targetLookAt := lookAtPos,
             overshootPosition := overshootPos, progress := 0 }
  let s2 : Animator := if |targetPos.y| > 0 then { s1 with progress := 1 } else s1
  { s2 with isMoving := true }

/-- The function `animateCamera()`, one tick of the render loop. -/
def animateCamera (s : Animator) : Animator :=
  if s.isMoving then
    let s1 : Animator := { s with progress := s.progress + moveSpeed }
    let s2 : Animator :=
      if s1.progress < 2 / 10 then
        { s1 with cameraPosition := s1.cameraPosition.lerp s1.overshootPosition (s1.progress * 2) }
      else
        { s1 with cameraPosition :=
            s1.cameraPosition.lerp s1.targetPosition ((s1.progress - 2 / 10) * 2) }
    let s3 : Animator :=
      { s2 with controlsTarget := s2.controlsTarget.lerp s2.targetLookAt (1 / 10) }
    if s3.progress ≥ 1 then
      { s3 with cameraPosition := s3.targetPosition, controlsTarget := s3.targetLookAt,
                isMoving := false }
    else s3
  else s

/-- The state after `n` ticks of `animateCamera`. -/
def ticks : Nat → Animator → Animator
  | 0, s => s
  | n + 1, s => ticks n (animateCamera s)

/-! ## Invariants of the pointer state machine -/

/-- Every plane is at the baseline opacity, or it is at the hover opacity and is
the recorded `hoveredObject`. -/
def HoverInv (s : State) : Prop :=
  ∀ p : Plane, s.opacity p = originalOpacity ∨
    (s.opacity p = hoverOpacity ∧ s.hoveredObject = some p)

/-- No plane is selected: every label and grid group is visible and every
plane sits at offset 0. -/
def Clean (s : State) : Prop :=
  (∀ p, s.labelVisible p = true) ∧ (∀ p, s.gridGroupVisible p = true) ∧ (∀ p, s.offset p = 0)

/-- Plane `a` is the selected one: its label alone is hidden, the grid groups of
the two other axes alone are hidden, and it alone is nudged, by `-0.01`. -/
def SelectedAt (s : State) (a : Plane) : Prop :=
  (∀ p, s.labelVisible p = decide (p ≠ a)) ∧
  (∀ p, s.gridGroupVisible p = decide (p = a)) ∧
  (∀ p, s.offset p = if p = a then -(1 / 100) else 0)

/-- The scene is clean, or the machine is Locked with exactly one plane selected. -/
def SelInv (s : State) : Prop :=
  Clean s ∨ (s.isNormal = true ∧ ∃ a, SelectedAt s a)

/-! ## Frame lemmas for the pointer handlers -/

theorem distanceTo_gt_five_iff (a b : Vec2) :
    a.distanceToGtFive b = true ↔ (5 : ℝ) < Real.sqrt ((a.distanceToSquared b : ℚ) : ℝ) := by
  unfold Vec2.distanceToGtFive
  rw [decide_eq_true_iff, Real.lt_sqrt (by norm_num)]
  have h : ((5 : ℝ) ^ 2) = ((25 : ℚ) : ℝ) := by norm_num
  rw [h]
  exact Rat.cast_lt.symm

@[simp] theorem hoverUpdate_isDragging (e : MouseEvent) (s : State) :
    (hoverUpdate e s).isDragging = s.isDragging := by
  unfold hoverUpdate; split <;> split <;> (try split) <;> rfl

@[simp] theorem hoverUpdate_isMouseDown (e : MouseEvent) (s : State) :
    (hoverUpdate e s).isMouseDown = s.isMouseDown := by
  unfold hoverUpdate; split <;> split <;> (try split) <;> rfl

@[simp] theorem hoverUpdate_isNormal (e : MouseEvent) (s : State) :
    (hoverUpdate e s).isNormal = s.isNormal := by
  unfold hoverUpdate; split <;> split <;> (try split) <;> rfl

@[simp] theorem hoverUpdate_mouseDownPos (e : MouseEvent) (s : State) :
    (hoverUpdate e s).mouseDownPos = s.mouseDownPos := by
  unfold hoverUpdate; split <;> split <;> (try split) <;> rfl

@[simp] theorem hoverUpdate_stored (e : MouseEvent) (s : State) :
    (hoverUpdate e s).stored = s.stored := by
  unfold hoverUpdate; split <;> split <;> (try split) <;> rfl

@[simp] theorem hoverUpdate_labelVisible (e : MouseEvent) (s : State) :
    (hoverUpdate e s).labelVisible = s.labelVisible := by
  unfold hoverUpdate; split <;> split <;> (try split) <;> rfl

@[simp] theorem hoverUpdate_gridGroupVisible (e : MouseEvent) (s : State) :
    (hoverUpdate e s).gridGroupVisible = s.gridGroupVisible := by
  unfold hoverUpdate; split <;> split <;> (try split) <;> rfl

@[simp] theorem hoverUpdate_offset (e : MouseEvent) (s : State) :
    (hoverUpdate e s).offset = s.offset := by
  unfold hoverUpdate; split <;> split <;> (try split) <;> rfl

@[simp] theorem hoverUpdate_moveCameraCalls (e : MouseEvent) (s : State) :
    (hoverUpdate e s).moveCameraCalls = s.moveCameraCalls := by
  unfold hoverUpdate; split <;> split <;> (try split) <;> rfl

theorem onMouseMove_isMouseDown (e : MouseEvent) (s : State) :
    (onMouseMove e s).isMouseDown = s.isMouseDown := by
  unfold onMouseMove dragReset
  by_cases h1 : s.isMouseDown = true <;>
    by_cases h2 : s.mouseDownPos.distanceToGtFive ⟨e.clientX, e.clientY⟩ = true <;>
    by_cases h3 : s.isDragging = true <;> by_cases h4 : s.isNormal = true <;>
    simp [h1, h2, h3, h4]

theorem onMouseMove_mouseDownPos (e : MouseEvent) (s : State) :
    (onMouseMove e s).mouseDownPos = s.mouseDownPos := by
  unfold onMouseMove dragReset
  by_cases h1 : s.isMouseDown = true <;>
    by_cases h2 : s.mouseDownPos.distanceToGtFive ⟨e.clientX, e.clientY⟩ = true <;>
    by_cases h3 : s.isDragging = true <;> by_cases h4 : s.isNormal = true <;>
    simp [h1, h2, h3, h4]

theorem onMouseMove_isDragging (e : MouseEvent) (s : State) :
    (onMouseMove e s).isDragging =
      (s.isDragging || (s.isMouseDown && s.mouseDownPos.distanceToGtFive ⟨e.clientX, e.clientY⟩)) := by
  unfold onMouseMove dragReset
  by_cases h1 : s.isMouseDown = true <;>
    by_cases h2 : s.mouseDownPos.distanceToGtFive ⟨e.clientX, e.clientY⟩ = true <;>
    by_cases h3 : s.isDragging = true <;> by_cases h4 : s.isNormal = true <;>
    simp [h1, h2, h3, h4]

theorem moves_isMouseDown (ms : List MouseEvent) (s : State) :
    (moves s ms).isMouseDown = s.isMouseDown := by
  induction ms generalizing s with
  | nil => rfl
  | cons m ms ih =>
    show (moves (onMouseMove m s) ms).isMouseDown = _
    rw [ih, onMouseMove_isMouseDown]

theorem moves_mouseDownPos (ms : List MouseEvent) (s : State) :
    (moves s ms).mouseDownPos = s.mouseDownPos := by
  induction ms generalizing s with
  | nil => rfl
  | cons m ms ih =>
    show (moves (onMouseMove m s) ms).mouseDownPos = _
    rw [ih, onMouseMove_mouseDownPos]

theorem moves_isDragging (ms : List MouseEvent) (s : State) (hd : s.isMouseDown = true) :
    (moves s ms).isDragging =
      (s.isDragging || ms.any (fun m => s.mouseDownPos.distanceToGtFive ⟨m.clientX, m.clientY⟩)) := by
  induction ms generalizing s with
  | nil => simp [moves]
  | cons m ms ih =>
    show (moves (onMouseMove m s) ms).isDragging = _
    rw [ih _ (by rw [onMouseMove_isMouseDown]; exact hd), onMouseMove_isDragging,
      onMouseMove_mouseDownPos, hd]
    simp [Bool.or_assoc]

theorem onMouseUp_isDragging (e : MouseEvent) (s : State) :
    (onMouseUp e s).state.isDragging = false := by
  unfold onMouseUp handleClick
  by_cases h3 : s.isDragging = true <;> by_cases h4 : s.isNormal = true <;>
    cases he : e.hit <;> cases hh : s.hoveredObject <;>
    simp [h3, h4, he, hh, Outcome.state]

theorem onMouseMove_drag (e : MouseEvent) (s : State) (hd : s.isMouseDown = true)
    (hf : s.isDragging = true ∨ s.mouseDownPos.distanceToGtFive ⟨e.clientX, e.clientY⟩ = true) :
    onMouseMove e s = dragReset { s with isDragging := true } := by
  unfold onMouseMove dragReset
  by_cases h2 : s.mouseDownPos.distanceToGtFive ⟨e.clientX, e.clientY⟩ = true <;>
    by_cases h3 : s.isDragging = true <;> simp [hd, h2, h3] at hf ⊢

theorem onMouseMove_hover (e : MouseEvent) (s : State)
    (hnd : ¬ (s.isMouseDown = true ∧
      (s.isDragging = true ∨ s.mouseDownPos.distanceToGtFive ⟨e.clientX, e.clientY⟩ = true)))
    (hn : s.isNormal = false) : onMouseMove e s = hoverUpdate e s := by
  unfold onMouseMove
  by_cases h1 : s.isMouseDown = true <;>
    by_cases h2 : s.mouseDownPos.distanceToGtFive ⟨e.clientX, e.clientY⟩ = true <;>
    by_cases h3 : s.isDragging = true <;> simp [h1, h2, h3, hn] at hnd ⊢

theorem onMouseMove_locked (e : MouseEvent) (s : State)
    (hnd : ¬ (s.isMouseDown = true ∧
      (s.isDragging = true ∨ s.mouseDownPos.distanceToGtFive ⟨e.clientX, e.clientY⟩ = true)))
    (hn : s.isNormal = true) : onMouseMove e s = s := by
  unfold onMouseMove
  by_cases h1 : s.isMouseDown = true <;>
    by_cases h2 : s.mouseDownPos.distanceToGtFive ⟨e.clientX, e.clientY⟩ = true <;>
    by_cases h3 : s.isDragging = true <;> simp [h1, h2, h3, hn] at hnd ⊢

theorem onMouseUp_noclick (e : MouseEvent) (s : State)
    (h : s.isDragging = true ∨ s.isNormal = true) :
    onMouseUp e s = .done { s with isMouseDown := false, isDragging := false } := by
  unfold onMouseUp
  rcases h with h | h <;> simp [h]

theorem onMouseUp_miss (e : MouseEvent) (s : State) (hd : s.isDragging = false)
    (hn : s.isNormal = false) (he : e.hit = none) :
    onMouseUp e s = .done { s with isMouseDown := false, isDragging := false } := by
  unfold onMouseUp handleClick
  simp [hd, hn, he]

theorem onMouseUp_threw (e : MouseEvent) (s : State) (c : Plane) (hd : s.isDragging = false)
    (hn : s.isNormal = false) (he : e.hit = some c) (hh : s.hoveredObject = none) :
    onMouseUp e s = .threw { s with isMouseDown := false, isNormal := true } := by
  unfold onMouseUp handleClick
  simp [hd, hn, he, hh]

theorem onMouseUp_click (e : MouseEvent) (s : State) (c h : Plane) (hd : s.isDragging = false)
    (hn : s.isNormal = false) (he : e.hit = some c) (hh : s.hoveredObject = some h) :
    onMouseUp e s = .done
      { s with
        isMouseDown := false
        isDragging := false
        isNormal := true
        opacity := Function.update s.opacity h originalOpacity
        labelVisible := Function.update s.labelVisible c false
        gridGroupVisible :=
          Function.update (Function.update s.gridGroupVisible (otherGroups c).1 false)
            (otherGroups c).2 false
        moveCameraCalls := s.moveCameraCalls ++
          [(if e.cameraPosition.along c > 0 then (s.stored c).position
            else (s.stored c).position.multiplyScalar (-1), (s.stored c).lookAt)]
        offset := Function.update s.offset c (s.offset c - 1 / 100) } := by
  unfold onMouseUp handleClick
  simp [hd, hn, he, hh]

/-! ## Drag detection -/

/-- C1. Drag detection is a latch on a strict 5-pixel threshold.  From a state
whose drag flag is clear (as it is initially and after every pointer-up), after
a pointer-down at `p` and any run `ms` of pointer-moves, `isDragging` is true
exactly when some move of the run lies at Euclidean distance strictly greater
than 5 from `p`.  A move at distance exactly 5 (down at (100,100), move to
(103,104)) does not set the flag, a set flag survives every later move, and
`onMouseUp` clears it. -/
theorem drag_latch (s : State) (p : MouseEvent) (ms : List MouseEvent)
    (h : s.isDragging = false) :
    ((moves (onMouseDown p s) ms).isDragging = true ↔
      ∃ m ∈ ms, (5 : ℝ) <
        Real.sqrt (((Vec2.mk p.clientX p.clientY).distanceToSquared
          (Vec2.mk m.clientX m.clientY) : ℚ) : ℝ)) ∧
    (∀ (hit : Option Plane) (cam : Vec3),
      (onMouseMove ⟨103, 104, hit, cam⟩ (onMouseDown ⟨100, 100, hit, cam⟩ s)).isDragging
        = false) ∧
    (∀ (t : State) (m : MouseEvent), t.isDragging = true →
      (onMouseMove m t).isDragging = true) ∧
    (∀ (t : State) (e : MouseEvent), (onMouseUp e t).state.isDragging = false) := by
  refine ⟨?_, ?_, ?_, ?_⟩
  · rw [moves_isDragging _ _ rfl]
    simp only [onMouseDown, h, Bool.false_or, List.any_eq_true]
    constructor
    · rintro ⟨m, hm, hf⟩
      exact ⟨m, hm, (distanceTo_gt_five_iff _ _).1 hf⟩
    · rintro ⟨m, hm, hf⟩
      exact ⟨m, hm, (distanceTo_gt_five_iff _ _).2 hf⟩
  · intro hit cam
    rw [onMouseMove_isDragging]
    simp only [onMouseDown, h, Bool.false_or, Bool.true_and]
    unfold Vec2.distanceToGtFive Vec2.distanceToSquared
    norm_num
  · intro t m ht
    rw [onMouseMove_isDragging, ht]; rfl
  · intro t e
    exact onMouseUp_isDragging e t

/-- Witness of C1 at the initial scene: down at (100,100), moves to (103,104)
and (150,100). -/
theorem drag_latch_witness :
    State.init.isDragging = false ∧
    (moves (onMouseDown ⟨100, 100, none, ⟨10, 10, 10⟩⟩ State.init)
        [⟨103, 104, none, ⟨10, 10, 10⟩⟩, ⟨150, 100, none, ⟨10, 10, 10⟩⟩]).isDragging = true :=
  ⟨rfl, ((drag_latch State.init ⟨100, 100, none, ⟨10, 10, 10⟩⟩
      [⟨103, 104, none, ⟨10, 10, 10⟩⟩, ⟨150, 100, none, ⟨10, 10, 10⟩⟩] rfl).1).2
    ⟨⟨150, 100, none, ⟨10, 10, 10⟩⟩, by simp,
      (distanceTo_gt_five_iff _ _).1 (by
        unfold Vec2.distanceToGtFive Vec2.distanceToSquared
        norm_num)⟩⟩

/-! ## Hover -/

theorem hoverInv_congr {s t : State} (ho : t.opacity = s.opacity)
    (hh : t.hoveredObject = s.hoveredObject) (h : HoverInv s) : HoverInv t := by
  intro p
  rw [ho, hh]
  exact h p

theorem hoverUpdate_inv (e : MouseEvent) (s : State) (h : HoverInv s) :
    HoverInv (hoverUpdate e s) := by
  intro p
  have hp := h p
  unfold hoverUpdate
  cases he : e.hit with
  | none =>
    cases hh : s.hoveredObject with
    | none => simpa [hh] using hp
    | some q =>
      by_cases hpq : p = q
      · subst hpq; simp
      · rcases hp with hp | ⟨_, hp⟩
        · simp [Function.update_apply, hpq, hp]
        · rw [hh] at hp
          exact absurd (Option.some.inj hp).symm hpq
  | some c =>
    cases hh : s.hoveredObject with
    | none =>
      by_cases hpc : p = c
      · subst hpc; simp
      · rcases hp with hp | ⟨_, hp⟩
        · simp [Function.update_apply, hpc, hp]
        · rw [hh] at hp; cases hp
    | some q =>
      by_cases hpc : p = c
      · subst hpc
        by_cases hqp : q = p <;> simp [hqp]
      · by_cases hqc : q = c
        · subst hqc
          rcases hp with hp | ⟨_, hp⟩
          · simp [Function.update_apply, hpc, hp]
          · rw [hh] at hp
            exact absurd (Option.some.inj hp).symm hpc
        · by_cases hpq : p = q
          · subst hpq
            simp [Function.update_apply, hpc, hqc]
          · rcases hp with hp | ⟨_, hp⟩
            · simp [Function.update_apply, hpc, hqc, hpq, hp]
            · rw [hh] at hp
              exact absurd (Option.some.inj hp).symm hpq

theorem onMouseMove_inv (e : MouseEvent) (s : State) (h : HoverInv s) :
    HoverInv (onMouseMove e s) := by
  unfold onMouseMove dragReset
  by_cases h1 : s.isMouseDown = true <;>
    by_cases h2 : s.mouseDownPos.distanceToGtFive ⟨e.clientX, e.clientY⟩ = true <;>
    by_cases h3 : s.isDragging = true <;> by_cases h4 : s.isNormal = true <;>
    simp only [h1, h2, h3, h4, Bool.and_self, Bool.and_true, Bool.and_false, Bool.true_and,
      Bool.false_and, if_true, if_false, Bool.not_true, Bool.not_false, Bool.false_eq_true,
      Bool.not_eq_true] at * <;>
    first
      | exact h
      | exact hoverInv_congr rfl rfl h
      | exact hoverUpdate_inv e _ h

theorem onMouseUp_inv (e : MouseEvent) (s : State) (h : HoverInv s) :
    HoverInv (onMouseUp e s).state := by
  by_cases hc : s.isDragging = true ∨ s.isNormal = true
  · rw [onMouseUp_noclick e s hc]
    exact hoverInv_congr (s := s) rfl rfl h
  · have hd : s.isDragging = false := by
      cases hx : s.isDragging <;> simp [hx] at hc ⊢
    have hn : s.isNormal = false := by
      cases hx : s.isNormal <;> simp [hx] at hc ⊢
    cases he : e.hit with
    | none =>
      rw [onMouseUp_miss e s hd hn he]
      exact hoverInv_congr (s := s) rfl rfl h
    | some c =>
      cases hh : s.hoveredObject with
      | none =>
        rw [onMouseUp_threw e s c hd hn he hh]
        exact hoverInv_congr (s := s) rfl rfl h
      | some q =>
        rw [onMouseUp_click e s c q hd hn he hh]
        intro p
        by_cases hpq : p = q
        · subst hpq; left; simp [Outcome.state]
        · rcases h p with hp | ⟨_, hp⟩
          · left; simp [Outcome.state, Function.update_apply, hpq, hp]
          · rw [hh] at hp
            exact absurd (Option.some.inj hp).symm hpq

theorem step_inv (s : State) (ev : Ev) (h : HoverInv s) : HoverInv (step s ev) := by
  cases ev with
  | down e => exact hoverInv_congr (s := s) rfl rfl h
  | move e => exact onMouseMove_inv e s h
  | up e => exact onMouseUp_inv e s h

theorem run_inv (es : List Ev) (s : State) (h : HoverInv s) : HoverInv (run s es) := by
  induction es generalizing s with
  | nil => exact h
  | cons ev es ih => exact ih _ (step_inv s ev h)

theorem init_inv : HoverInv State.init := fun _ => Or.inl rfl

theorem hoverOpacity_eq : hoverOpacity = 7 / 10 := by
  unfold hoverOpacity planeOpacity; norm_num

/-- C2. Hover invariant over all reachable states.  After any sequence of
pointer events from the initial scene, with arbitrary hit-test results, every
plane opacity is the baseline 0.5 or exactly `min(0.7, 2 x baseline) = 0.7`; at
most one plane has the hover opacity; and a plane at the hover opacity is the
recorded `hoveredObject`. -/
theorem hover_invariant (es : List Ev) :
    hoverOpacity = min (7 / 10) (2 * planeOpacity) ∧ hoverOpacity = 7 / 10 ∧
    (∀ p, State.init.opacity p = 1 / 2) ∧ State.init.hoveredObject = none ∧
    (∀ p, (run State.init es).opacity p = 1 / 2 ∨ (run State.init es).opacity p = 7 / 10) ∧
    (∀ p q, (run State.init es).opacity p = 7 / 10 → (run State.init es).opacity q = 7 / 10 →
      p = q) ∧
    (∀ p, (run State.init es).opacity p = 7 / 10 →
      (run State.init es).hoveredObject = some p) := by
  have hinv := run_inv es State.init init_inv
  have horig : originalOpacity = 1 / 2 := rfl
  have key : ∀ p, (run State.init es).opacity p = 7 / 10 →
      (run State.init es).hoveredObject = some p := by
    intro p hp
    rcases hinv p with h | ⟨_, h⟩
    · rw [h, horig] at hp; norm_num at hp
    · exact h
  refine ⟨rfl, hoverOpacity_eq, fun _ => rfl, rfl, ?_, ?_, key⟩
  · intro p
    rcases hinv p with h | ⟨h, _⟩
    · left; rw [h, horig]
    · right; rw [h, hoverOpacity_eq]
  · intro p q hp hq
    have h1 := key p hp
    rw [key q hq] at h1
    exact (Option.some.inj h1).symm

/-! ## Clicks -/

/-- C3. A click on `xPlane` that no pointer-move preceded: pointer-down and
pointer-up on the initial scene with the hit test returning `xPlane`.
`handleClick` sets `isNormal`, then ends by a `TypeError` on
`hoveredObject.material.opacity`: no label and no grid group is hidden, the
plane is not nudged and `moveCamera` is not called. -/
theorem click_without_hover_throws :
    (onMouseUp ⟨100, 100, some .xPlane, ⟨10, 10, 10⟩⟩
      (onMouseDown ⟨100, 100, some .xPlane, ⟨10, 10, 10⟩⟩ State.init)).hasThrown = true ∧
    (onMouseUp ⟨100, 100, some .xPlane, ⟨10, 10, 10⟩⟩
      (onMouseDown ⟨100, 100, some .xPlane, ⟨10, 10, 10⟩⟩ State.init)).state.isNormal = true ∧
    (onMouseUp ⟨100, 100, some .xPlane, ⟨10, 10, 10⟩⟩
      (onMouseDown ⟨100, 100, some .xPlane, ⟨10, 10, 10⟩⟩ State.init)).state.labelVisible
        .xPlane = true ∧
    (∀ p, (onMouseUp ⟨100, 100, some .xPlane, ⟨10, 10, 10⟩⟩
      (onMouseDown ⟨100, 100, some .xPlane, ⟨10, 10, 10⟩⟩ State.init)).state.gridGroupVisible
        p = true) ∧
    (onMouseUp ⟨100, 100, some .xPlane, ⟨10, 10, 10⟩⟩
      (onMouseDown ⟨100, 100, some .xPlane, ⟨10, 10, 10⟩⟩ State.init)).state.offset .xPlane = 0 ∧
    (onMouseUp ⟨100, 100, some .xPlane, ⟨10, 10, 10⟩⟩
      (onMouseDown ⟨100, 100, some .xPlane, ⟨10, 10, 10⟩⟩ State.init)).state.moveCameraCalls
        = [] := by
  rw [onMouseUp_threw _ _ .xPlane rfl rfl rfl rfl]
  exact ⟨rfl, rfl, rfl, fun _ => rfl, rfl, rfl⟩

theorem step_stored (s : State) (ev : Ev) : (step s ev).stored = s.stored := by
  cases ev with
  | down e => rfl
  | move e =>
    show (onMouseMove e s).stored = s.stored
    by_cases hd : s.isMouseDown = true ∧
      (s.isDragging = true ∨ s.mouseDownPos.distanceToGtFive ⟨e.clientX, e.clientY⟩ = true)
    · rw [onMouseMove_drag e s hd.1 hd.2]; rfl
    · cases hn : s.isNormal
      · rw [onMouseMove_hover e s hd hn, hoverUpdate_stored]
      · rw [onMouseMove_locked e s hd hn]
  | up e =>
    show (onMouseUp e s).state.stored = s.stored
    by_cases hc : s.isDragging = true ∨ s.isNormal = true
    · rw [onMouseUp_noclick e s hc]; rfl
    · have hd : s.isDragging = false := by
        cases hx : s.isDragging <;> simp [hx] at hc ⊢
      have hn : s.isNormal = false := by
        cases hx : s.isNormal <;> simp [hx] at hc ⊢
      cases he : e.hit with
      | none => rw [onMouseUp_miss e s hd hn he]; rfl
      | some c =>
        cases hh : s.hoveredObject with
        | none => rw [onMouseUp_threw e s c hd hn he hh]; rfl
        | some q => rw [onMouseUp_click e s c q hd hn he hh]; rfl

theorem run_stored (es : List Ev) (s : State) : (run s es).stored = s.stored := by
  induction es generalizing s with
  | nil => rfl
  | cons ev es ih =>
    show (run (step s ev) es).stored = s.stored
    rw [ih, step_stored]

/-- C4. Choice of the canonical viewing pose on a click.  In a state that is
neither dragging nor Locked, holds the `cameraPositions` table as written and has
a hover target recorded, a pointer-up whose hit test returns the `a`-plane ends
normally and calls `moveCamera` once, with look-at (0,0,0) and with a target that
is 0 off the axis of `a` and, on that axis, the stored pose (10) when the camera
coordinate on that axis is strictly positive and the negated stored pose (-10)
when it is zero or negative.  The stored table is the same after the call, as it
is after every sequence of pointer events. -/
theorem click_pose (s : State) (e : MouseEvent) (a h : Plane)
    (hd : s.isDragging = false) (hn : s.isNormal = false) (hs : s.stored = cameraPositions)
    (hh : s.hoveredObject = some h) (he : e.hit = some a) :
    (onMouseUp e s).hasThrown = false ∧
    (∃ target : Vec3,
      (onMouseUp e s).state.moveCameraCalls = s.moveCameraCalls ++ [(target, ⟨0, 0, 0⟩)] ∧
      (0 < e.cameraPosition.along a →
        target = (cameraPositions a).position ∧ target.along a = 10) ∧
      (e.cameraPosition.along a ≤ 0 →
        target = (cameraPositions a).position.multiplyScalar (-1) ∧ target.along a = -10) ∧
      (∀ b, b ≠ a → target.along b = 0)) ∧
    (onMouseUp e s).state.stored = cameraPositions ∧
    (∀ es : List Ev, (run s es).stored = cameraPositions) := by
  rw [onMouseUp_click e s a h hd hn he hh]
  refine ⟨rfl, ?_, hs, fun es => by rw [run_stored, hs]⟩
  simp only [Outcome.state, hs]
  by_cases hc : 0 < e.cameraPosition.along a
  · refine ⟨(cameraPositions a).position, ?_, ?_, ?_, ?_⟩
    · simp only [gt_iff_lt, hc, if_true]
      cases a <;> rfl
    · intro _
      exact ⟨rfl, by cases a <;> rfl⟩
    · intro hle
      exact absurd hc (not_lt.mpr hle)
    · intro b hb
      cases a <;> cases b <;> first | rfl | exact absurd rfl hb
  · refine ⟨(cameraPositions a).position.multiplyScalar (-1), ?_, ?_, ?_, ?_⟩
    · simp only [gt_iff_lt, hc, if_false]
      cases a <;> rfl
    · intro hpos
      exact absurd hpos hc
    · intro _
      refine ⟨rfl, ?_⟩
      cases a <;> simp [cameraPositions, Vec3.multiplyScalar, Vec3.along]
    · intro b hb
      cases a <;> cases b <;>
        first
          | exact absurd rfl hb
          | simp [cameraPositions, Vec3.multiplyScalar, Vec3.along]

/-- Witness of C4: hover over `xPlane`, then press and release on it with the
camera at (-3, 4, 5); the requested target is (-10, 0, 0). -/
theorem click_pose_witness :
    (onMouseUp ⟨100, 100, some .xPlane, ⟨-3, 4, 5⟩⟩
      (onMouseDown ⟨100, 100, some .xPlane, ⟨-3, 4, 5⟩⟩
        (onMouseMove ⟨100, 100, some .xPlane, ⟨-3, 4, 5⟩⟩ State.init))).hasThrown = false :=
  (click_pose
    (onMouseDown ⟨100, 100, some .xPlane, ⟨-3, 4, 5⟩⟩
      (onMouseMove ⟨100, 100, some .xPlane, ⟨-3, 4, 5⟩⟩ State.init))
    ⟨100, 100, some .xPlane, ⟨-3, 4, 5⟩⟩ .xPlane .xPlane rfl rfl rfl rfl rfl).1

/-! ## Leaving the Locked state -/

theorem step_isNormal_iff (s : State) (hn : s.isNormal = true) (ev : Ev) :
    (step s ev).isNormal = false ↔
      ∃ m, ev = .move m ∧ s.isMouseDown = true ∧
        (s.isDragging = true ∨ s.mouseDownPos.distanceToGtFive ⟨m.clientX, m.clientY⟩ = true) := by
  cases ev with
  | down e =>
    constructor
    · intro h
      have : s.isNormal = false := h
      rw [hn] at this; cases this
    · rintro ⟨m, hm, _⟩; cases hm
  | up e =>
    constructor
    · intro h
      have h2 : (onMouseUp e s).state.isNormal = false := h
      rw [onMouseUp_noclick e s (Or.inr hn)] at h2
      have : s.isNormal = false := h2
      rw [hn] at this; cases this
    · rintro ⟨m, hm, _⟩; cases hm
  | move e =>
    constructor
    · intro h
      have h2 : (onMouseMove e s).isNormal = false := h
      by_cases hd : s.isMouseDown = true ∧
        (s.isDragging = true ∨ s.mouseDownPos.distanceToGtFive ⟨e.clientX, e.clientY⟩ = true)
      · exact ⟨e, rfl, hd.1, hd.2⟩
      · rw [onMouseMove_locked e s hd hn, hn] at h2; cases h2
    · rintro ⟨m, hm, h1, h2⟩
      cases hm
      show (onMouseMove e s).isNormal = false
      rw [onMouseMove_drag e s h1 h2]; rfl

theorem onMouseMove_after_down_far (s : State) (p m : MouseEvent)
    (hf : (Vec2.mk p.clientX p.clientY).distanceToGtFive ⟨m.clientX, m.clientY⟩ = true) :
    onMouseMove m (onMouseDown p s) =
      dragReset { onMouseDown p s with isDragging := true } :=
  onMouseMove_drag m (onMouseDown p s) rfl (Or.inr hf)

/-- C5, as stated, fails.  Hover over `xPlane`, press and release on it: the
state is Locked.  Then press at (100,100) and move to (150,100): the state is no
longer Locked. -/
theorem locked_exit_by_drag :
    (run State.init
      [.move ⟨100, 100, some .xPlane, ⟨10, 10, 10⟩⟩, .down ⟨100, 100, some .xPlane, ⟨10, 10, 10⟩⟩,
       .up ⟨100, 100, some .xPlane, ⟨10, 10, 10⟩⟩]).isNormal = true ∧
    (run State.init
      [.move ⟨100, 100, some .xPlane, ⟨10, 10, 10⟩⟩, .down ⟨100, 100, some .xPlane, ⟨10, 10, 10⟩⟩,
       .up ⟨100, 100, some .xPlane, ⟨10, 10, 10⟩⟩, .down ⟨100, 100, none, ⟨10, 0, 0⟩⟩,
       .move ⟨150, 100, none, ⟨10, 0, 0⟩⟩]).isNormal = false := by
  refine ⟨rfl, ?_⟩
  refine congrArg State.isNormal (onMouseMove_after_down_far _ _ _ (by
    simp only [Vec2.distanceToGtFive, Vec2.distanceToSquared]
    norm_num))

/-- C5, amended.  From a Locked state, one pointer event leaves Locked exactly
when it is a pointer-move handled while the button is held and the drag flag is
set (by an earlier move or by this one lying more than 5 px from the down
position); pointer-down, pointer-up and every other pointer-move keep `isNormal`
true.  Hence Locked persists across every sequence of pointer events during
which the drag flag is never set. -/
theorem locked_until_drag (s : State) (hn : s.isNormal = true) :
    (∀ ev, (step s ev).isNormal = false ↔
      ∃ m, ev = .move m ∧ s.isMouseDown = true ∧
        (s.isDragging = true ∨
          s.mouseDownPos.distanceToGtFive ⟨m.clientX, m.clientY⟩ = true)) ∧
    (∀ es : List Ev, (∀ k, k ≤ es.length → (run s (es.take k)).isDragging = false) →
      (run s es).isNormal = true) := by
  refine ⟨step_isNormal_iff s hn, ?_⟩
  intro es
  induction es generalizing s with
  | nil => intro _; exact hn
  | cons ev es ih =>
    intro hk
    have h1 : (step s ev).isDragging = false := hk 1 (by simp)
    have hn1 : (step s ev).isNormal = true := by
      cases hx : (step s ev).isNormal with
      | true => rfl
      | false =>
        obtain ⟨m, hm, hdown, hfar⟩ := (step_isNormal_iff s hn ev).1 hx
        subst hm
        have h2 : (onMouseMove m s).isDragging = false := h1
        rw [onMouseMove_isDragging, hdown] at h2
        rcases hfar with hf | hf <;> simp [hf] at h2
    exact ih (step s ev) hn1 (fun k hkl => hk (k + 1) (by simpa using hkl))

/-- Witness of C5 amended: in the Locked state reached by hovering over and
clicking `xPlane`, a pointer-down is not an exit. -/
theorem locked_until_drag_witness :
    (step (run State.init
      [.move ⟨100, 100, some .xPlane, ⟨10, 10, 10⟩⟩, .down ⟨100, 100, some .xPlane, ⟨10, 10, 10⟩⟩,
       .up ⟨100, 100, some .xPlane, ⟨10, 10, 10⟩⟩])
      (.down ⟨100, 100, none, ⟨10, 0, 0⟩⟩)).isNormal ≠ false := fun h => by
  obtain ⟨m, hm, _⟩ := ((locked_until_drag (run State.init
      [.move ⟨100, 100, some .xPlane, ⟨10, 10, 10⟩⟩, .down ⟨100, 100, some .xPlane, ⟨10, 10, 10⟩⟩,
       .up ⟨100, 100, some .xPlane, ⟨10, 10, 10⟩⟩]) rfl).1 _).1 h
  cases hm

/-! ## The camera animator -/

theorem moveCamera_eq (t l : Vec3) (s : Animator) :
    moveCamera t l s =
      { cameraPosition := s.cameraPosition
        controlsTarget := s.controlsTarget
        targetPosition := t
        targetLookAt := l
        overshootPosition := t.multiplyScalar overshootFactor
        isMoving := true
        progress := if |t.y| > 0 then 1 else 0 } := by
  unfold moveCamera
  by_cases h : |t.y| > 0 <;> simp [h]

theorem animateCamera_idle (s : Animator) (h : s.isMoving = false) : animateCamera s = s := by
  unfold animateCamera; simp [h]

theorem animateCamera_last (s : Animator) (h : s.isMoving = true)
    (hp : 1 ≤ s.progress + moveSpeed) :
    animateCamera s =
      { s with progress := s.progress + moveSpeed, cameraPosition := s.targetPosition,
               controlsTarget := s.targetLookAt, isMoving := false } := by
  unfold animateCamera
  by_cases h2 : s.progress + moveSpeed < 2 / 10 <;> simp [h, h2, hp]

theorem animateCamera_running (s : Animator) (h : s.isMoving = true)
    (hp : s.progress + moveSpeed < 1) :
    (animateCamera s).isMoving = true ∧
    (animateCamera s).progress = s.progress + moveSpeed ∧
    (animateCamera s).targetPosition = s.targetPosition ∧
    (animateCamera s).targetLookAt = s.targetLookAt := by
  unfold animateCamera
  by_cases h2 : s.progress + moveSpeed < 2 / 10 <;> simp [h, h2, not_le.mpr hp]

theorem ticks_succ (n : Nat) (s : Animator) : ticks (n + 1) s = animateCamera (ticks n s) := by
  induction n generalizing s with
  | zero => rfl
  | succ n ih =>
    show ticks (n + 1) (animateCamera s) = animateCamera (ticks (n + 1) s)
    rw [ih]; rfl

theorem ticks_add (m n : Nat) (s : Animator) : ticks (m + n) s = ticks n (ticks m s) := by
  induction m generalizing s with
  | zero => simp [ticks]
  | succ m ih =>
    rw [Nat.add_right_comm]
    show ticks (m + n) (animateCamera s) = ticks n (ticks m (animateCamera s))
    exact ih _

theorem ticks_idle (n : Nat) (s : Animator) (h : s.isMoving = false) : ticks n s = s := by
  induction n with
  | zero => rfl
  | succ n ih => rw [ticks_succ, ih, animateCamera_idle s h]

theorem ticks_running (n : Nat) (s : Animator) (h : s.isMoving = true)
    (hp : s.progress + n * moveSpeed < 1) :
    (ticks n s).isMoving = true ∧
    (ticks n s).progress = s.progress + n * moveSpeed ∧
    (ticks n s).targetPosition = s.targetPosition ∧
    (ticks n s).targetLookAt = s.targetLookAt := by
  induction n with
  | zero => simp [ticks, h]
  | succ n ih =>
    have hms : (0 : ℚ) < moveSpeed := by unfold moveSpeed; norm_num
    have hlt : s.progress + n * moveSpeed < 1 := by
      push_cast at hp; linarith
    obtain ⟨h1, h2, h3, h4⟩ := ih hlt
    have hp2 : (ticks n s).progress + moveSpeed < 1 := by
      rw [h2]; push_cast at hp; linarith
    obtain ⟨g1, g2, g3, g4⟩ := animateCamera_running (ticks n s) h1 hp2
    rw [ticks_succ]
    refine ⟨g1, ?_, g3.trans h3, g4.trans h4⟩
    rw [g2, h2]; push_cast; ring

/-- After a request, the transition is over at tick `n + 1` when `n` is the
number of ticks during which it is still running, and the camera then sits on
the target; `n = 99` for a target with `y = 0`, `n = 0` otherwise. -/
theorem ticks_complete (n : Nat) (s : Animator) (h : s.isMoving = true)
    (hp : s.progress + n * moveSpeed < 1) (hq : 1 ≤ s.progress + (n + 1) * moveSpeed) :
    (ticks (n + 1) s).isMoving = false ∧
    (ticks (n + 1) s).cameraPosition = s.targetPosition ∧
    (ticks (n + 1) s).controlsTarget = s.targetLookAt ∧
    (ticks (n + 1) s).progress = s.progress + (n + 1) * moveSpeed := by
  obtain ⟨h1, h2, h3, h4⟩ := ticks_running n s h hp
  rw [ticks_succ, animateCamera_last (ticks n s) h1 (by rw [h2]; linarith)]
  refine ⟨rfl, h3, h4, ?_⟩
  show (ticks n s).progress + moveSpeed = _
  rw [h2]; ring

theorem animateCamera_targets (s : Animator) :
    (animateCamera s).targetPosition = s.targetPosition ∧
    (animateCamera s).targetLookAt = s.targetLookAt := by
  unfold animateCamera
  by_cases h : s.isMoving = true <;> by_cases h2 : s.progress + moveSpeed < 2 / 10 <;>
    by_cases h3 : 1 ≤ s.progress + moveSpeed <;> simp [h, h2, h3]

theorem ticks_targets (n : Nat) (s : Animator) :
    (ticks n s).targetPosition = s.targetPosition ∧
    (ticks n s).targetLookAt = s.targetLookAt := by
  induction n with
  | zero => exact ⟨rfl, rfl⟩
  | succ n ih =>
    rw [ticks_succ]
    exact ⟨(animateCamera_targets _).1.trans ih.1, (animateCamera_targets _).2.trans ih.2⟩

theorem animateCamera_progress (s : Animator) (h : s.isMoving = true) :
    (animateCamera s).progress = s.progress + moveSpeed := by
  by_cases hp : s.progress + moveSpeed < 1
  · exact (animateCamera_running s h hp).2.1
  · rw [animateCamera_last s h (not_lt.mp hp)]

theorem animateCamera_stops (s : Animator) (h : s.isMoving = true)
    (hs : (animateCamera s).isMoving = false) :
    (animateCamera s).cameraPosition = s.targetPosition ∧
    (animateCamera s).controlsTarget = s.targetLookAt := by
  by_cases hp : s.progress + moveSpeed < 1
  · rw [(animateCamera_running s h hp).1] at hs; cases hs
  · rw [animateCamera_last s h (not_lt.mp hp)]
    exact ⟨rfl, rfl⟩

/-- The number of ticks a request keeps the animator running before the tick
that ends the transition. -/
theorem transition_completes (s : Animator) (t l : Vec3) :
    ∃ n : Nat, n < 100 ∧ (t.y = 0 → n = 99) ∧ (t.y ≠ 0 → n = 0) ∧
      (∀ i, i ≤ n → (ticks i (moveCamera t l s)).isMoving = true ∧
        (ticks i (moveCamera t l s)).progress = (moveCamera t l s).progress + i * moveSpeed) ∧
      (ticks (n + 1) (moveCamera t l s)).isMoving = false ∧
      (ticks (n + 1) (moveCamera t l s)).cameraPosition = t ∧
      (ticks (n + 1) (moveCamera t l s)).controlsTarget = l := by
  have hm : (moveCamera t l s).isMoving = true := by rw [moveCamera_eq]
  have ht : (moveCamera t l s).targetPosition = t := by rw [moveCamera_eq]
  have hl : (moveCamera t l s).targetLookAt = l := by rw [moveCamera_eq]
  by_cases hy : t.y = 0
  · have hp : (moveCamera t l s).progress = 0 := by
      rw [moveCamera_eq]; simp [hy]
    refine ⟨99, by norm_num, fun _ => rfl, fun h => absurd hy h, ?_, ?_⟩
    · intro i hi
      have hi2 : (i : ℚ) ≤ 99 := by exact_mod_cast hi
      have := ticks_running i (moveCamera t l s) hm (by
        rw [hp]; unfold moveSpeed; linarith)
      exact ⟨this.1, this.2.1⟩
    · have := ticks_complete 99 (moveCamera t l s) hm
        (by rw [hp]; unfold moveSpeed; norm_num) (by rw [hp]; unfold moveSpeed; norm_num)
      rw [ht, hl] at this
      exact ⟨this.1, this.2.1, this.2.2.1⟩
  · have hp : (moveCamera t l s).progress = 1 := by
      rw [moveCamera_eq]; simp [hy]
    refine ⟨0, by norm_num, fun h => absurd h hy, fun _ => rfl, ?_, ?_⟩
    · intro i hi
      have hi0 : i = 0 := Nat.le_zero.mp hi
      subst hi0
      exact ⟨hm, by simp [ticks]⟩
    · have h1 : 1 ≤ (moveCamera t l s).progress + moveSpeed := by
        rw [hp]; unfold moveSpeed; norm_num
      have e : ticks (0 + 1) (moveCamera t l s) = animateCamera (moveCamera t l s) := rfl
      rw [e, animateCamera_last _ hm h1]
      exact ⟨rfl, ht, hl⟩

theorem first_tick_stops (s : Animator) (t l : Vec3) (hy : t.y ≠ 0) :
    (ticks (0 + 1) (moveCamera t l s)).isMoving = false := by
  obtain ⟨n, _, _, h1, _, hstop, _⟩ := transition_completes s t l
  have hn : n = 0 := h1 hy
  subst hn
  exact hstop

/-- C6. Every camera transition ends after a number of `animateCamera` ticks
fixed by the request alone.  For every animator state and every request: when
the target has `y = 0`, progress starts at 0, the transition is still running
after each of the first 99 ticks (progress `n/100` after `n` ticks) and stops on
the 100th; when the target has `y ≠ 0`, progress starts at 1 and the first tick
already ends the transition with the camera on the target.  On every tick of a
running transition progress strictly increases. -/
theorem transition_tick_count (s : Animator) (t l : Vec3) :
    (t.y = 0 →
      (moveCamera t l s).progress = 0 ∧
      (∀ n : Nat, n < 100 → (ticks n (moveCamera t l s)).isMoving = true ∧
        (ticks n (moveCamera t l s)).progress = n / 100) ∧
      (ticks 100 (moveCamera t l s)).isMoving = false) ∧
    (t.y ≠ 0 →
      (moveCamera t l s).progress = 1 ∧
      (moveCamera t l s).isMoving = true ∧
      (ticks 1 (moveCamera t l s)).isMoving = false ∧
      (ticks 1 (moveCamera t l s)).cameraPosition = t) ∧
    (∀ a : Animator, a.isMoving = true → a.progress < (animateCamera a).progress) := by
  obtain ⟨n, _, h0, h1, hrun, hstop, hcam, _⟩ := transition_completes s t l
  refine ⟨?_, ?_, ?_⟩
  · intro hy
    have hn : n = 99 := h0 hy
    subst hn
    have hp : (moveCamera t l s).progress = 0 := by
      rw [moveCamera_eq]; simp [hy]
    refine ⟨hp, ?_, hstop⟩
    intro i hi
    obtain ⟨g1, g2⟩ := hrun i (Nat.lt_succ_iff.mp hi)
    refine ⟨g1, ?_⟩
    rw [g2, hp]; unfold moveSpeed; ring
  · intro hy
    have hn : n = 0 := h1 hy
    subst hn
    refine ⟨?_, ?_, hstop, hcam⟩
    · rw [moveCamera_eq]; simp [hy]
    · rw [moveCamera_eq]
  · intro a ha
    rw [animateCamera_progress a ha]
    unfold moveSpeed; linarith

/-- Witness of C6: a request toward (10, 0, 0) from the idle animator with the
camera at (10, 10, 10) stops on tick 100. -/
theorem transition_tick_count_witness :
    (ticks 100 (moveCamera ⟨10, 0, 0⟩ ⟨0, 0, 0⟩
      (Animator.init ⟨10, 10, 10⟩ ⟨0, 0, 0⟩))).isMoving = false :=
  ((transition_tick_count (Animator.init ⟨10, 10, 10⟩ ⟨0, 0, 0⟩) ⟨10, 0, 0⟩ ⟨0, 0, 0⟩).1
    rfl).2.2

/-- C7. At transition completion the pose is exact.  For every animator state
(any camera position, any orbit focus) and every request `moveCamera t l`, the
transition does stop within 100 ticks, and in the state produced by the tick on
which `isMoving` becomes false the camera position is exactly `t` and the orbit
focus exactly `l`; every further tick leaves both unchanged. -/
theorem completion_pose_exact (s : Animator) (t l : Vec3) :
    (∃ n : Nat, n < 100 ∧ (ticks n (moveCamera t l s)).isMoving = true ∧
      (ticks (n + 1) (moveCamera t l s)).isMoving = false) ∧
    (∀ n : Nat, (ticks n (moveCamera t l s)).isMoving = true →
      (ticks (n + 1) (moveCamera t l s)).isMoving = false →
      (ticks (n + 1) (moveCamera t l s)).cameraPosition = t ∧
      (ticks (n + 1) (moveCamera t l s)).controlsTarget = l ∧
      ∀ j : Nat, (ticks (n + 1 + j) (moveCamera t l s)).cameraPosition = t ∧
        (ticks (n + 1 + j) (moveCamera t l s)).controlsTarget = l ∧
        (ticks (n + 1 + j) (moveCamera t l s)).isMoving = false) := by
  constructor
  · obtain ⟨n, hn, _, _, hrun, hstop, _⟩ := transition_completes s t l
    exact ⟨n, hn, (hrun n (Nat.le_refl n)).1, hstop⟩
  · intro n h1 h2
    have ht : (ticks n (moveCamera t l s)).targetPosition = t := by
      rw [(ticks_targets n _).1, moveCamera_eq]
    have hl : (ticks n (moveCamera t l s)).targetLookAt = l := by
      rw [(ticks_targets n _).2, moveCamera_eq]
    rw [ticks_succ] at h2
    have hstop := animateCamera_stops _ h1 h2
    rw [ht, hl, ← ticks_succ] at hstop
    rw [← ticks_succ] at h2
    refine ⟨hstop.1, hstop.2, ?_⟩
    intro j
    rw [ticks_add, ticks_idle j _ h2]
    exact ⟨hstop.1, hstop.2, h2⟩

/-- Witness of C7: a request toward (0, 10, 0) from the idle animator with the
camera at (10, 10, 10); the first tick ends the transition on the target. -/
theorem completion_pose_exact_witness :
    (ticks (0 + 1) (moveCamera ⟨0, 10, 0⟩ ⟨0, 0, 0⟩
      (Animator.init ⟨10, 10, 10⟩ ⟨1, 2, 3⟩))).cameraPosition = ⟨0, 10, 0⟩ ∧
    (ticks (0 + 1) (moveCamera ⟨0, 10, 0⟩ ⟨0, 0, 0⟩
      (Animator.init ⟨10, 10, 10⟩ ⟨1, 2, 3⟩))).controlsTarget = ⟨0, 0, 0⟩ :=
  have h := (completion_pose_exact (Animator.init ⟨10, 10, 10⟩ ⟨1, 2, 3⟩)
    ⟨0, 10, 0⟩ ⟨0, 0, 0⟩).2 0
    (by rw [moveCamera_eq]; rfl)
    (first_tick_stops (Animator.init ⟨10, 10, 10⟩ ⟨1, 2, 3⟩) ⟨0, 10, 0⟩ ⟨0, 0, 0⟩ (by norm_num))
  ⟨h.1, h.2.1⟩

/-- C8. The most recent request wins, with no queueing.  For every animator
state and every request `moveCamera t l`, the target position, look-at,
overshoot position, progress and moving flag right after the call are those the
same call produces from the idle initial animator, and the call leaves the
camera position and the orbit focus as they were.  Hence after
`moveCamera a la`, `k` ticks and `moveCamera b lb`, the transition stops within
100 ticks with the camera on `b` and the focus on `lb` (so not on `a` when
`a ≠ b`). -/
theorem latest_request_wins (s : Animator) (t l : Vec3) :
    (∀ c f : Vec3,
      (moveCamera t l s).targetPosition = (moveCamera t l (Animator.init c f)).targetPosition ∧
      (moveCamera t l s).targetLookAt = (moveCamera t l (Animator.init c f)).targetLookAt ∧
      (moveCamera t l s).overshootPosition =
        (moveCamera t l (Animator.init c f)).overshootPosition ∧
      (moveCamera t l s).progress = (moveCamera t l (Animator.init c f)).progress ∧
      (moveCamera t l s).isMoving = (moveCamera t l (Animator.init c f)).isMoving) ∧
    (moveCamera t l s).targetPosition = t ∧ (moveCamera t l s).targetLookAt = l ∧
    (moveCamera t l s).cameraPosition = s.cameraPosition ∧
    (moveCamera t l s).controlsTarget = s.controlsTarget ∧
    (∀ (a la : Vec3) (k : Nat), ∃ n : Nat, n < 100 ∧
      (∀ i, i ≤ n → (ticks i (moveCamera t l (ticks k (moveCamera a la s)))).isMoving = true) ∧
      (ticks (n + 1) (moveCamera t l (ticks k (moveCamera a la s)))).isMoving = false ∧
      (ticks (n + 1) (moveCamera t l (ticks k (moveCamera a la s)))).cameraPosition = t ∧
      (ticks (n + 1) (moveCamera t l (ticks k (moveCamera a la s)))).controlsTarget = l ∧
      (a ≠ t →
        (ticks (n + 1) (moveCamera t l (ticks k (moveCamera a la s)))).cameraPosition ≠ a)) := by
  refine ⟨?_, ?_, ?_, ?_, ?_, ?_⟩
  · intro c f
    simp only [moveCamera_eq, and_self]
  · rw [moveCamera_eq]
  · rw [moveCamera_eq]
  · rw [moveCamera_eq]
  · rw [moveCamera_eq]
  · intro a la k
    obtain ⟨n, hn, _, _, hrun, hstop, hcam, hfoc⟩ :=
      transition_completes (ticks k (moveCamera a la s)) t l
    refine ⟨n, hn, fun i hi => (hrun i hi).1, hstop, hcam, hfoc, ?_⟩
    intro hne
    rw [hcam]
    exact fun h => hne h.symm

/-- Witness of C8: a request toward (10, 0, 0), 37 ticks, then a request toward
(0, 0, -10); the statement is applied with `a ≠ t` discharged. -/
theorem latest_request_wins_witness :
    ∃ n : Nat, n < 100 ∧
      (ticks (n + 1) (moveCamera ⟨0, 0, -10⟩ ⟨0, 0, 0⟩ (ticks 37 (moveCamera ⟨10, 0, 0⟩ ⟨0, 0, 0⟩
        (Animator.init ⟨10, 10, 10⟩ ⟨0, 0, 0⟩))))).cameraPosition ≠ ⟨10, 0, 0⟩ := by
  obtain ⟨n, hn, _, _, _, _, h⟩ :=
    (latest_request_wins (Animator.init ⟨10, 10, 10⟩ ⟨0, 0, 0⟩) ⟨0, 0, -10⟩ ⟨0, 0, 0⟩).2.2.2.2.2
      ⟨10, 0, 0⟩ ⟨0, 0, 0⟩ 37
  exact ⟨n, hn, h (by simp)⟩

/-! ## Drag gestures and selection -/

/-- C9. A drag gesture never acts as a click and restores the free-orbit view.
For every state, after pointer-down at `p`, a pointer-move to a point more than
5 px from `p` and pointer-up: the drag flag was set by the move; the pointer-up
ends normally; all labels and grid groups are visible; the three plane offsets
are 0; `moveCamera` has not been called; the state is not Locked, whatever the
hit tests return; and `isDragging` is false again.  The move that enters
Dragging, and every pointer-move handled while Dragging, changes no plane
opacity and leaves the hover target as it was. -/
theorem drag_gesture_restores (s : State) (p m u : MouseEvent)
    (hf : (5 : ℝ) < Real.sqrt (((Vec2.mk p.clientX p.clientY).distanceToSquared
      (Vec2.mk m.clientX m.clientY) : ℚ) : ℝ)) :
    (onMouseMove m (onMouseDown p s)).isDragging = true ∧
    (onMouseUp u (onMouseMove m (onMouseDown p s))).hasThrown = false ∧
    (∀ a, (onMouseUp u (onMouseMove m (onMouseDown p s))).state.labelVisible a = true) ∧
    (∀ a, (onMouseUp u (onMouseMove m (onMouseDown p s))).state.gridGroupVisible a = true) ∧
    (∀ a, (onMouseUp u (onMouseMove m (onMouseDown p s))).state.offset a = 0) ∧
    (onMouseUp u (onMouseMove m (onMouseDown p s))).state.moveCameraCalls = s.moveCameraCalls ∧
    (onMouseUp u (onMouseMove m (onMouseDown p s))).state.isNormal = false ∧
    (onMouseUp u (onMouseMove m (onMouseDown p s))).state.isDragging = false ∧
    (onMouseMove m (onMouseDown p s)).opacity = s.opacity ∧
    (onMouseMove m (onMouseDown p s)).hoveredObject = s.hoveredObject ∧
    (∀ (t : State) (e : MouseEvent), t.isMouseDown = true → t.isDragging = true →
      (onMouseMove e t).opacity = t.opacity ∧
      (onMouseMove e t).hoveredObject = t.hoveredObject) := by
  have hfar := (distanceTo_gt_five_iff _ _).2 hf
  rw [onMouseMove_after_down_far s p m hfar, onMouseUp_noclick u _ (Or.inl rfl)]
  refine ⟨rfl, rfl, fun _ => rfl, fun _ => rfl, fun _ => rfl, rfl, rfl, rfl, rfl, rfl, ?_⟩
  intro t e h1 h2
  rw [onMouseMove_drag e t h1 (Or.inl h2)]
  exact ⟨rfl, rfl⟩

/-- Witness of C9: down at (100,100), move to (150,100), up, on the initial
scene. -/
theorem drag_gesture_restores_witness :
    (onMouseUp ⟨150, 100, some .xPlane, ⟨10, 10, 10⟩⟩
      (onMouseMove ⟨150, 100, some .xPlane, ⟨10, 10, 10⟩⟩
        (onMouseDown ⟨100, 100, some .xPlane, ⟨10, 10, 10⟩⟩ State.init))).state.isNormal
      = false :=
  (drag_gesture_restores State.init ⟨100, 100, some .xPlane, ⟨10, 10, 10⟩⟩
    ⟨150, 100, some .xPlane, ⟨10, 10, 10⟩⟩ ⟨150, 100, some .xPlane, ⟨10, 10, 10⟩⟩
    ((distanceTo_gt_five_iff _ _).1 (by
      simp only [Vec2.distanceToGtFive, Vec2.distanceToSquared]
      norm_num))).2.2.2.2.2.2.1

theorem selInv_congr {s t : State} (h1 : t.labelVisible = s.labelVisible)
    (h2 : t.gridGroupVisible = s.gridGroupVisible) (h3 : t.offset = s.offset)
    (h4 : s.isNormal = true → t.isNormal = true) (h : SelInv s) : SelInv t := by
  rcases h with h | ⟨hn, a, ha⟩
  · left
    unfold Clean at h ⊢
    rw [h1, h2, h3]; exact h
  · right
    refine ⟨h4 hn, a, ?_⟩
    unfold SelectedAt at ha ⊢
    rw [h1, h2, h3]; exact ha

theorem selectedAt_of_click (s : State) (c : Plane) (hc : Clean s) (t : State)
    (h1 : t.labelVisible = Function.update s.labelVisible c false)
    (h2 : t.gridGroupVisible =
      Function.update (Function.update s.gridGroupVisible (otherGroups c).1 false)
        (otherGroups c).2 false)
    (h3 : t.offset = Function.update s.offset c (s.offset c - 1 / 100)) :
    SelectedAt t c := by
  obtain ⟨hl, hg, ho⟩ := hc
  refine ⟨?_, ?_, ?_⟩
  · intro p
    rw [h1]
    by_cases hp : p = c
    · subst hp; simp
    · simp [Function.update_apply, hp, hl p]
  · intro p
    rw [h2]
    cases c <;> cases p <;> simp [Function.update_apply, otherGroups, hg]
  · intro p
    rw [h3]
    by_cases hp : p = c
    · subst hp; simp [ho p]
    · simp [Function.update_apply, hp, ho p]

theorem step_selInv (s : State) (ev : Ev) (h : SelInv s) : SelInv (step s ev) := by
  cases ev with
  | down e => exact selInv_congr (s := s) rfl rfl rfl (fun hn => hn) h
  | move e =>
    show SelInv (onMouseMove e s)
    by_cases hd : s.isMouseDown = true ∧
      (s.isDragging = true ∨ s.mouseDownPos.distanceToGtFive ⟨e.clientX, e.clientY⟩ = true)
    · rw [onMouseMove_drag e s hd.1 hd.2]
      exact Or.inl ⟨fun _ => rfl, fun _ => rfl, fun _ => rfl⟩
    · cases hn : s.isNormal
      · rw [onMouseMove_hover e s hd hn]
        exact selInv_congr (hoverUpdate_labelVisible e s) (hoverUpdate_gridGroupVisible e s)
          (hoverUpdate_offset e s) (fun hx => by rw [hn] at hx; cases hx) h
      · rw [onMouseMove_locked e s hd hn]; exact h
  | up e =>
    show SelInv (onMouseUp e s).state
    by_cases hc : s.isDragging = true ∨ s.isNormal = true
    · rw [onMouseUp_noclick e s hc]
      exact selInv_congr (s := s) rfl rfl rfl (fun hn => hn) h
    · have hd : s.isDragging = false := by
        cases hx : s.isDragging <;> simp [hx] at hc ⊢
      have hn : s.isNormal = false := by
        cases hx : s.isNormal <;> simp [hx] at hc ⊢
      cases he : e.hit with
      | none =>
        rw [onMouseUp_miss e s hd hn he]
        exact selInv_congr (s := s) rfl rfl rfl (fun hn => hn) h
      | some c =>
        cases hh : s.hoveredObject with
        | none =>
          rw [onMouseUp_threw e s c hd hn he hh]
          exact selInv_congr (s := s) rfl rfl rfl (fun _ => rfl) h
        | some q =>
          rw [onMouseUp_click e s c q hd hn he hh]
          have hclean : Clean s := by
            rcases h with h | ⟨hx, _⟩
            · exact h
            · rw [hn] at hx; cases hx
          exact Or.inr ⟨rfl, c, selectedAt_of_click s c hclean _ rfl rfl rfl⟩

theorem run_selInv (es : List Ev) (s : State) (h : SelInv s) : SelInv (run s es) := by
  induction es generalizing s with
  | nil => exact h
  | cons ev es ih => exact ih _ (step_selInv s ev h)

theorem init_selInv : SelInv State.init :=
  Or.inl ⟨fun _ => rfl, fun _ => rfl, fun _ => rfl⟩

/-- C10. At most one plane is selected at a time.  In every state reached from
the initial scene by any sequence of pointer events with arbitrary hit-test
results: at most one label is hidden; every plane offset is 0 or exactly
`-0.01` and at most one is non-zero; the hidden grid groups are none, or exactly
those of the two axes other than one axis `a`; and whenever a label or a grid
group is hidden or an offset is non-zero, `isNormal` is true.  The three facts
concern the same plane: either nothing is hidden and every offset is 0, or the
state is Locked and there is one plane `a` such that the hidden label is exactly
the label of `a`, the hidden grid groups are exactly those of the two axes other
than `a`, and the nudged plane is exactly `a`, at offset `-0.01`. -/
theorem single_selection (es : List Ev) :
    (∀ p, State.init.labelVisible p = true ∧ State.init.gridGroupVisible p = true ∧
      State.init.offset p = 0) ∧ State.init.isNormal = false ∧
    (∀ p q, (run State.init es).labelVisible p = false →
      (run State.init es).labelVisible q = false → p = q) ∧
    (∀ p, (run State.init es).offset p = 0 ∨ (run State.init es).offset p = -(1 / 100)) ∧
    (∀ p q, (run State.init es).offset p ≠ 0 → (run State.init es).offset q ≠ 0 → p = q) ∧
    ((∀ p, (run State.init es).gridGroupVisible p = true) ∨
      ∃ a, ∀ p, (run State.init es).gridGroupVisible p = false ↔ p ≠ a) ∧
    (∀ p, ((run State.init es).labelVisible p = false ∨
        (run State.init es).gridGroupVisible p = false ∨ (run State.init es).offset p ≠ 0) →
      (run State.init es).isNormal = true) ∧
    ((∀ p, (run State.init es).labelVisible p = true ∧
        (run State.init es).gridGroupVisible p = true ∧ (run State.init es).offset p = 0) ∨
      ((run State.init es).isNormal = true ∧
        ∃ a, ∀ p,
          ((run State.init es).labelVisible p = false ↔ p = a) ∧
          ((run State.init es).gridGroupVisible p = false ↔ p ≠ a) ∧
          ((run State.init es).offset p ≠ 0 ↔ p = a) ∧
          ((run State.init es).offset p = -(1 / 100) ↔ p = a))) := by
  refine ⟨fun _ => ⟨rfl, rfl, rfl⟩, rfl, ?_⟩
  rcases run_selInv es State.init init_selInv with ⟨hl, hg, ho⟩ | ⟨hn, a, hl, hg, ho⟩
  · refine ⟨?_, fun p => Or.inl (ho p), ?_, Or.inl hg, ?_, Or.inl fun p => ⟨hl p, hg p, ho p⟩⟩
    · intro p q hp _
      rw [hl p] at hp; cases hp
    · intro p q hp _
      exact absurd (ho p) hp
    · rintro p (hp | hp | hp)
      · rw [hl p] at hp; cases hp
      · rw [hg p] at hp; cases hp
      · exact absurd (ho p) hp
  · have key : ∀ p, (run State.init es).offset p ≠ 0 → p = a := by
      intro p hp
      by_contra hpa
      rw [ho p, if_neg hpa] at hp
      exact hp rfl
    have keyl : ∀ p, (run State.init es).labelVisible p = false → p = a := by
      intro p hp
      by_contra hpa
      rw [hl p] at hp
      simp [hpa] at hp
    refine ⟨?_, ?_, ?_, Or.inr ⟨a, ?_⟩, fun _ _ => hn, Or.inr ⟨hn, a, ?_⟩⟩
    · intro p q hp hq
      rw [keyl p hp, keyl q hq]
    · intro p
      rw [ho p]
      by_cases hpa : p = a
      · right; rw [if_pos hpa]
      · left; rw [if_neg hpa]
    · intro p q hp hq
      rw [key p hp, key q hq]
    · intro p
      rw [hg p]
      simp
    · intro p
      refine ⟨?_, ?_, ?_, ?_⟩
      · rw [hl p]; simp
      · rw [hg p]; simp
      · rw [ho p]
        by_cases hpa : p = a
        · simp [hpa]
        · simp [hpa]
      · rw [ho p]
        by_cases hpa : p = a
        · simp [hpa]
        · simp [hpa]

/-! ## The two phases of a transition -/

theorem lerp_one (p q : Vec3) : p.lerp q 1 = q := by
  unfold Vec3.lerp
  cases q
  simp

theorem lerp_self (q : Vec3) (f : ℚ) : q.lerp q f = q := by
  unfold Vec3.lerp
  cases q
  simp

theorem lerp_zero (p q : Vec3) : p.lerp q 0 = p := by
  unfold Vec3.lerp
  cases p
  simp

theorem lerp_lerp (c o : Vec3) (a f : ℚ) :
    (c.lerp o a).lerp o f = c.lerp o (1 - (1 - a) * (1 - f)) := by
  unfold Vec3.lerp
  simp only [Vec3.mk.injEq]
  refine ⟨?_, ?_, ?_⟩ <;> ring

theorem lerp_eq_iff (c o : Vec3) (r : ℚ) (hr : r ≠ 0) : c.lerp o (1 - r) = o ↔ c = o := by
  constructor
  · intro h
    unfold Vec3.lerp at h
    cases c with
    | mk cx cy cz =>
      cases o with
      | mk ox oy oz =>
        simp only [Vec3.mk.injEq] at h ⊢
        obtain ⟨h1, h2, h3⟩ := h
        have e1 : (cx - ox) * r = 0 := by linear_combination h1
        have e2 : (cy - oy) * r = 0 := by linear_combination h2
        have e3 : (cz - oz) * r = 0 := by linear_combination h3
        refine ⟨?_, ?_, ?_⟩
        · exact sub_eq_zero.mp ((mul_eq_zero.mp e1).resolve_right hr)
        · exact sub_eq_zero.mp ((mul_eq_zero.mp e2).resolve_right hr)
        · exact sub_eq_zero.mp ((mul_eq_zero.mp e3).resolve_right hr)
  · intro h
    rw [h, lerp_self]

theorem animateCamera_overshoot (s : Animator) :
    (animateCamera s).overshootPosition = s.overshootPosition := by
  unfold animateCamera
  by_cases h : s.isMoving = true <;> by_cases h2 : s.progress + moveSpeed < 2 / 10 <;>
    by_cases h3 : 1 ≤ s.progress + moveSpeed <;> simp [h, h2, h3]

theorem animateCamera_phase_one (s : Animator) (h : s.isMoving = true)
    (hp : s.progress + moveSpeed < 2 / 10) :
    (animateCamera s).cameraPosition =
      s.cameraPosition.lerp s.overshootPosition ((s.progress + moveSpeed) * 2) := by
  have h3 : ¬ 1 ≤ s.progress + moveSpeed := by
    intro hc; linarith
  unfold animateCamera
  simp [h, hp, h3]

theorem animateCamera_phase_two (s : Animator) (h : s.isMoving = true)
    (hp : 2 / 10 ≤ s.progress + moveSpeed) (hq : s.progress + moveSpeed < 1) :
    (animateCamera s).cameraPosition =
      s.cameraPosition.lerp s.targetPosition ((s.progress + moveSpeed - 2 / 10) * 2) := by
  have h2 : ¬ s.progress + moveSpeed < 2 / 10 := not_lt.mpr hp
  have h3 : ¬ 1 ≤ s.progress + moveSpeed := not_le.mpr hq
  unfold animateCamera
  simp [h, h2, h3]

theorem ticks_overshoot (n : Nat) (s : Animator) :
    (ticks n s).overshootPosition = s.overshootPosition := by
  induction n with
  | zero => rfl
  | succ n ih => rw [ticks_succ, animateCamera_overshoot, ih]

theorem phase_one_factor_pos (n : Nat) (hn : n ≤ 49) :
    0 < Finset.prod (Finset.range n) (fun k : Nat => 1 - 2 * ((k : ℚ) + 1) / 100) := by
  apply Finset.prod_pos
  intro k hk
  have hk2 : k < n := Finset.mem_range.mp hk
  have hk3 : (k : ℚ) + 1 ≤ 49 := by
    have : k + 1 ≤ 49 := by omega
    exact_mod_cast this
  linarith

/-- Closed form of the camera position during the ticks whose progress is below
0.2: every tick takes the fraction `2 * progress` of what is left of the way to
the overshoot position. -/
theorem ticks_phase_one (a : Animator) (hm : a.isMoving = true) (hp : a.progress = 0)
    (n : Nat) (hn : n ≤ 19) :
    (ticks n a).cameraPosition =
      a.cameraPosition.lerp a.overshootPosition
        (1 - Finset.prod (Finset.range n) (fun k : Nat => 1 - 2 * ((k : ℚ) + 1) / 100)) := by
  induction n with
  | zero => simp [ticks, lerp_zero]
  | succ n ih =>
    have hn1 : n ≤ 19 := by omega
    have hnq : (n : ℚ) + 1 ≤ 19 := by exact_mod_cast hn
    obtain ⟨g1, g2, _, _⟩ := ticks_running n a hm (by
      rw [hp]; unfold moveSpeed; linarith)
    have hlt : (ticks n a).progress + moveSpeed < 2 / 10 := by
      rw [g2, hp]; unfold moveSpeed; linarith
    rw [ticks_succ, animateCamera_phase_one _ g1 hlt, ih hn1, ticks_overshoot, lerp_lerp,
      Finset.prod_range_succ, g2, hp]
    congr 1
    unfold moveSpeed
    ring

theorem ticks_twenty (a : Animator) (hm : a.isMoving = true) (hp : a.progress = 0) :
    (ticks 20 a).progress = 2 / 10 ∧ (ticks 20 a).cameraPosition = (ticks 19 a).cameraPosition := by
  obtain ⟨g1, g2, _, _⟩ := ticks_running 19 a hm (by rw [hp]; unfold moveSpeed; norm_num)
  have e : (ticks 19 a).progress + moveSpeed = 2 / 10 := by
    rw [g2, hp]; unfold moveSpeed; norm_num
  have h20 : ticks 20 a = animateCamera (ticks 19 a) := ticks_succ 19 a
  constructor
  · rw [h20, animateCamera_progress _ g1, e]
  · rw [h20, animateCamera_phase_two _ g1 (by rw [e]) (by rw [e]; norm_num), e]
    simp [lerp_zero]

/-- From tick 70 on the camera sits on the target: the factor of tick 70 is 1, and
a lerp from the target toward the target stays there. -/
theorem ticks_phase_two (a : Animator) (hm : a.isMoving = true) (hp : a.progress = 0)
    (k : Nat) (hk : 70 + k ≤ 99) :
    (ticks (70 + k) a).cameraPosition = a.targetPosition := by
  induction k with
  | zero =>
    obtain ⟨g1, g2, g3, _⟩ := ticks_running 69 a hm (by rw [hp]; unfold moveSpeed; norm_num)
    have e : (ticks 69 a).progress + moveSpeed = 7 / 10 := by
      rw [g2, hp]; unfold moveSpeed; norm_num
    have h70 : ticks (70 + 0) a = animateCamera (ticks 69 a) := ticks_succ 69 a
    rw [h70, animateCamera_phase_two _ g1 (by rw [e]; norm_num) (by rw [e]; norm_num), e, g3]
    have : ((7 : ℚ) / 10 - 2 / 10) * 2 = 1 := by norm_num
    rw [this, lerp_one]
  | succ k ih =>
    have hk1 : 70 + k ≤ 99 := by omega
    have hkq : (70 : ℚ) + k + 1 ≤ 99 := by exact_mod_cast hk
    obtain ⟨g1, g2, g3, _⟩ := ticks_running (70 + k) a hm (by
      rw [hp]; unfold moveSpeed; push_cast; linarith)
    have e : (ticks (70 + k) a).progress + moveSpeed = (70 + (k : ℚ) + 1) / 100 := by
      rw [g2, hp]; unfold moveSpeed; push_cast; ring
    have hk0 : (0 : ℚ) ≤ k := Nat.cast_nonneg k
    have hs : ticks (70 + (k + 1)) a = animateCamera (ticks (70 + k) a) := ticks_succ (70 + k) a
    rw [hs, animateCamera_phase_two _ g1 (by rw [e]; linarith) (by rw [e]; linarith), ih hk1, g3,
      lerp_self]

theorem moveCamera_start (s : Animator) (t l : Vec3) (hy : t.y = 0) :
    (moveCamera t l s).isMoving = true ∧ (moveCamera t l s).progress = 0 ∧
    (moveCamera t l s).cameraPosition = s.cameraPosition ∧
    (moveCamera t l s).targetPosition = t ∧
    (moveCamera t l s).overshootPosition = t.multiplyScalar overshootFactor := by
  rw [moveCamera_eq]
  simp [hy]

/-- C11. The overshoot position computed by `moveCamera`.  For every request it
is the target scaled by `overshootFactor = 0.98`, not by 1.2: for the target
(10, 0, 0) it is (9.8, 0, 0), which differs from (12, 0, 0) and whose squared
distance from the origin is smaller than that of the target. -/
theorem overshoot_is_contraction :
    (∀ (s : Animator) (t l : Vec3),
      (moveCamera t l s).overshootPosition = t.multiplyScalar (98 / 100)) ∧
    (moveCamera ⟨10, 0, 0⟩ ⟨0, 0, 0⟩
      (Animator.init ⟨10, 10, 10⟩ ⟨0, 0, 0⟩)).overshootPosition = ⟨49 / 5, 0, 0⟩ ∧
    (moveCamera ⟨10, 0, 0⟩ ⟨0, 0, 0⟩
      (Animator.init ⟨10, 10, 10⟩ ⟨0, 0, 0⟩)).overshootPosition ≠
        (Vec3.mk 10 0 0).multiplyScalar (12 / 10) ∧
    (moveCamera ⟨10, 0, 0⟩ ⟨0, 0, 0⟩ (Animator.init ⟨10, 10, 10⟩ ⟨0, 0, 0⟩)).overshootPosition.x *
      (moveCamera ⟨10, 0, 0⟩ ⟨0, 0, 0⟩ (Animator.init ⟨10, 10, 10⟩ ⟨0, 0, 0⟩)).overshootPosition.x +
    (moveCamera ⟨10, 0, 0⟩ ⟨0, 0, 0⟩ (Animator.init ⟨10, 10, 10⟩ ⟨0, 0, 0⟩)).overshootPosition.y *
      (moveCamera ⟨10, 0, 0⟩ ⟨0, 0, 0⟩ (Animator.init ⟨10, 10, 10⟩ ⟨0, 0, 0⟩)).overshootPosition.y +
    (moveCamera ⟨10, 0, 0⟩ ⟨0, 0, 0⟩ (Animator.init ⟨10, 10, 10⟩ ⟨0, 0, 0⟩)).overshootPosition.z *
      (moveCamera ⟨10, 0, 0⟩ ⟨0, 0, 0⟩ (Animator.init ⟨10, 10, 10⟩ ⟨0, 0, 0⟩)).overshootPosition.z
      < 10 * 10 + 0 * 0 + 0 * 0 := by
  have ho : (moveCamera ⟨10, 0, 0⟩ ⟨0, 0, 0⟩
      (Animator.init ⟨10, 10, 10⟩ ⟨0, 0, 0⟩)).overshootPosition = ⟨49 / 5, 0, 0⟩ := by
    rw [moveCamera_eq]
    simp only [Vec3.multiplyScalar, overshootFactor, Vec3.mk.injEq]
    norm_num
  refine ⟨?_, ho, ?_, ?_⟩
  · intro s t l
    rw [moveCamera_eq]
    rfl
  · rw [ho]
    simp only [Vec3.multiplyScalar, ne_eq, Vec3.mk.injEq]
    norm_num
  · rw [ho]
    norm_num

/-- C12, as stated, fails.  Camera at (10, 10, 10), request toward (10, 0, 0):
progress is 0.19 after tick 19 and 0.2 after tick 20, and at neither tick is the
camera on the overshoot position (9.8, 0, 0). -/
theorem phase_one_misses_overshoot :
    (ticks 19 (moveCamera ⟨10, 0, 0⟩ ⟨0, 0, 0⟩
      (Animator.init ⟨10, 10, 10⟩ ⟨0, 0, 0⟩))).progress = 19 / 100 ∧
    (ticks 20 (moveCamera ⟨10, 0, 0⟩ ⟨0, 0, 0⟩
      (Animator.init ⟨10, 10, 10⟩ ⟨0, 0, 0⟩))).progress = 2 / 10 ∧
    (ticks 19 (moveCamera ⟨10, 0, 0⟩ ⟨0, 0, 0⟩
      (Animator.init ⟨10, 10, 10⟩ ⟨0, 0, 0⟩))).cameraPosition ≠
      (moveCamera ⟨10, 0, 0⟩ ⟨0, 0, 0⟩
        (Animator.init ⟨10, 10, 10⟩ ⟨0, 0, 0⟩)).overshootPosition ∧
    (ticks 20 (moveCamera ⟨10, 0, 0⟩ ⟨0, 0, 0⟩
      (Animator.init ⟨10, 10, 10⟩ ⟨0, 0, 0⟩))).cameraPosition ≠
      (moveCamera ⟨10, 0, 0⟩ ⟨0, 0, 0⟩
        (Animator.init ⟨10, 10, 10⟩ ⟨0, 0, 0⟩)).overshootPosition := by
  obtain ⟨hm, hp, hc, _, ho⟩ :=
    moveCamera_start (Animator.init ⟨10, 10, 10⟩ ⟨0, 0, 0⟩) ⟨10, 0, 0⟩ ⟨0, 0, 0⟩ rfl
  obtain ⟨h20p, h20c⟩ := ticks_twenty _ hm hp
  have hne : (moveCamera ⟨10, 0, 0⟩ ⟨0, 0, 0⟩
      (Animator.init ⟨10, 10, 10⟩ ⟨0, 0, 0⟩)).cameraPosition ≠
      (moveCamera ⟨10, 0, 0⟩ ⟨0, 0, 0⟩
        (Animator.init ⟨10, 10, 10⟩ ⟨0, 0, 0⟩)).overshootPosition := by
    rw [hc, ho]
    simp only [Animator.init, Vec3.multiplyScalar, overshootFactor, ne_eq, Vec3.mk.injEq]
    norm_num
  have h19 : (ticks 19 (moveCamera ⟨10, 0, 0⟩ ⟨0, 0, 0⟩
      (Animator.init ⟨10, 10, 10⟩ ⟨0, 0, 0⟩))).cameraPosition ≠
      (moveCamera ⟨10, 0, 0⟩ ⟨0, 0, 0⟩
        (Animator.init ⟨10, 10, 10⟩ ⟨0, 0, 0⟩)).overshootPosition := by
    rw [ticks_phase_one _ hm hp 19 (Nat.le_refl 19)]
    intro h
    exact hne ((lerp_eq_iff _ _ _ (ne_of_gt (phase_one_factor_pos 19 (by norm_num)))).1 h)
  refine ⟨?_, h20p, h19, ?_⟩
  · have := (ticks_running 19 _ hm (by rw [hp]; unfold moveSpeed; norm_num)).2.1
    rw [this, hp]; unfold moveSpeed; norm_num
  · rw [h20c]; exact h19

/-- C12, amended.  Phase one of a non-skip transition moves the camera toward
the overshoot position without reaching it.  For every animator state and every
request with target `y = 0`: after each tick `n ≤ 19` progress is `n/100 < 0.2`
and the camera is at `lerp(start, overshoot, 1 - r n)`, where
`r n = (1 - 2/100)(1 - 4/100)...(1 - 2n/100) > 0` is the part of the way that is
left; `r 19 = 34991685520054130225358/2910383045673370361328125`, about 1.2 %.
Tick 20 brings progress to 0.2 and leaves the camera where tick 19 put it.  So at
every tick up to 20 the camera is on the overshoot position only if it started
there. -/
theorem phase_one_approaches_overshoot (s : Animator) (t l : Vec3) (hy : t.y = 0) :
    (∀ n : Nat, n ≤ 19 →
      (ticks n (moveCamera t l s)).progress = n / 100 ∧
      (ticks n (moveCamera t l s)).progress < 2 / 10 ∧
      0 < Finset.prod (Finset.range n) (fun k : Nat => 1 - 2 * ((k : ℚ) + 1) / 100) ∧
      (ticks n (moveCamera t l s)).cameraPosition =
        s.cameraPosition.lerp (moveCamera t l s).overshootPosition
          (1 - Finset.prod (Finset.range n) (fun k : Nat => 1 - 2 * ((k : ℚ) + 1) / 100))) ∧
    Finset.prod (Finset.range 19) (fun k : Nat => 1 - 2 * ((k : ℚ) + 1) / 100) =
      34991685520054130225358 / 2910383045673370361328125 ∧
    (ticks 20 (moveCamera t l s)).progress = 2 / 10 ∧
    (ticks 20 (moveCamera t l s)).cameraPosition =
      (ticks 19 (moveCamera t l s)).cameraPosition ∧
    (∀ n : Nat, n ≤ 20 →
      ((ticks n (moveCamera t l s)).cameraPosition = (moveCamera t l s).overshootPosition ↔
        s.cameraPosition = (moveCamera t l s).overshootPosition)) := by
  obtain ⟨hm, hp, hc, _, _⟩ := moveCamera_start s t l hy
  obtain ⟨h20p, h20c⟩ := ticks_twenty _ hm hp
  have hpos : ∀ n : Nat, n ≤ 19 →
      ((ticks n (moveCamera t l s)).cameraPosition = (moveCamera t l s).overshootPosition ↔
        s.cameraPosition = (moveCamera t l s).overshootPosition) := by
    intro n hn
    rw [ticks_phase_one _ hm hp n hn, hc]
    exact lerp_eq_iff _ _ _ (ne_of_gt (phase_one_factor_pos n (by omega)))
  refine ⟨?_, ?_, h20p, h20c, ?_⟩
  · intro n hn
    have hnq : (n : ℚ) ≤ 19 := by exact_mod_cast hn
    have hprog : (ticks n (moveCamera t l s)).progress = n / 100 := by
      rw [(ticks_running n _ hm (by rw [hp]; unfold moveSpeed; linarith)).2.1, hp]
      unfold moveSpeed; ring
    refine ⟨hprog, ?_, phase_one_factor_pos n (by omega), ?_⟩
    · rw [hprog]; linarith
    · rw [ticks_phase_one _ hm hp n hn, hc]
  · simp only [Finset.prod_range_succ, Finset.prod_range_zero]
    norm_num
  · intro n hn
    by_cases h19 : n ≤ 19
    · exact hpos n h19
    · have h20 : n = 20 := by omega
      subst h20
      rw [h20c]
      exact hpos 19 (Nat.le_refl 19)

/-- Witness of C12 amended: camera at (10, 10, 10), request toward (10, 0, 0);
progress is 0.2 after tick 20. -/
theorem phase_one_approaches_overshoot_witness :
    (ticks 20 (moveCamera ⟨10, 0, 0⟩ ⟨0, 0, 0⟩
      (Animator.init ⟨10, 10, 10⟩ ⟨0, 0, 0⟩))).progress = 2 / 10 :=
  (phase_one_approaches_overshoot (Animator.init ⟨10, 10, 10⟩ ⟨0, 0, 0⟩)
    ⟨10, 0, 0⟩ ⟨0, 0, 0⟩ rfl).2.2.1

/-- C13. Phase two of a non-skip transition reaches the target, and does so
before progress 1.0.  For every animator state and every request with target
`y = 0`: on the 70th tick progress is 0.7 and the factor `(progress - 0.2) * 2`
is 1, so the camera is exactly on the target after tick 70; it is on the target
after every tick from 70 to 100 (and after every later one); and the transition
is still marked moving after each of the ticks below 100 and is marked inactive
on tick 100. -/
theorem phase_two_reaches_target (s : Animator) (t l : Vec3) (hy : t.y = 0) :
    (ticks 70 (moveCamera t l s)).progress = 7 / 10 ∧
    ((ticks 70 (moveCamera t l s)).progress - 2 / 10) * 2 = 1 ∧
    (ticks 70 (moveCamera t l s)).cameraPosition = t ∧
    (∀ n : Nat, 70 ≤ n → (ticks n (moveCamera t l s)).cameraPosition = t) ∧
    (∀ n : Nat, n < 100 → (ticks n (moveCamera t l s)).isMoving = true) ∧
    (ticks 100 (moveCamera t l s)).isMoving = false := by
  obtain ⟨hm, hp, _, ht, _⟩ := moveCamera_start s t l hy
  have hprog : (ticks 70 (moveCamera t l s)).progress = 7 / 10 := by
    rw [(ticks_running 70 _ hm (by rw [hp]; unfold moveSpeed; norm_num)).2.1, hp]
    unfold moveSpeed; norm_num
  have hdone := ticks_complete 99 (moveCamera t l s) hm
    (by rw [hp]; unfold moveSpeed; norm_num) (by rw [hp]; unfold moveSpeed; norm_num)
  have hcam : ∀ n : Nat, 70 ≤ n → (ticks n (moveCamera t l s)).cameraPosition = t := by
    intro n hn
    by_cases h99 : n ≤ 99
    · obtain ⟨k, hk⟩ : ∃ k, n = 70 + k := ⟨n - 70, by omega⟩
      subst hk
      rw [ticks_phase_two _ hm hp k h99, ht]
    · obtain ⟨j, hj⟩ : ∃ j, n = 99 + 1 + j := ⟨n - 100, by omega⟩
      subst hj
      rw [ticks_add, ticks_idle j _ hdone.1, hdone.2.1, ht]
  refine ⟨hprog, ?_, hcam 70 (Nat.le_refl 70), hcam, ?_, hdone.1⟩
  · rw [hprog]; norm_num
  · intro n hn
    have hnq : (n : ℚ) ≤ 99 := by
      have : n ≤ 99 := by omega
      exact_mod_cast this
    exact (ticks_running n _ hm (by rw [hp]; unfold moveSpeed; linarith)).1

/-- Witness of C13: camera at (10, 10, 10), request toward (10, 0, 0); the camera
is on (10, 0, 0) after tick 70. -/
theorem phase_two_reaches_target_witness :
    (ticks 70 (moveCamera ⟨10, 0, 0⟩ ⟨0, 0, 0⟩
      (Animator.init ⟨10, 10, 10⟩ ⟨0, 0, 0⟩))).cameraPosition = ⟨10, 0, 0⟩ :=
  (phase_two_reaches_target (Animator.init ⟨10, 10, 10⟩ ⟨0, 0, 0⟩)
    ⟨10, 0, 0⟩ ⟨0, 0, 0⟩ rfl).2.2.1

end Web1
